import Mathlib

set_option linter.unusedVariables false
set_option linter.unnecessarySeqFocus false

/-!
Verification model of the avvio boot orchestrator (src/boot.js,
src/lib/plugin.js, src/lib/promise.js and the thenable helper).

The JavaScript engine is single-threaded and every shared mutation happens
between explicit yield points, so the boot of a plugin tree is a
deterministic sequential traversal.  We embed the engine as:

* `runNode`/`runList` — a trace-producing interpreter of a boot tree,
  translated from `Plugin.prototype.exec`, `Plugin.prototype.finish` and
  `loadPlugin`: the ambient orchestrator error is threaded through the
  traversal, a non-after plugin is skipped when the ambient error is set,
  children run only inside `finish` after the body settled, and the fastq
  task callback records a plugin failure on the orchestrator.
* `runNode2`/`runList2` — the same interpreter extended with the
  partial-completion path (`loadedSoFar`/`_loadRegistered`), whose `setup`
  resumes a unit's child queue mid-body, before the body settles.
* `finStep`/`finRun` — the `finish`/`check` loop of a single plugin with a
  dynamically growing child queue (children may register further children
  between the drain signal and the re-scheduled `check` microtask).
* `rqStep`/`cqStep` — the ready/close fastq queues created by `createQueue`
  (paused at construction, drain handler fired when the queue empties).
* `execDone`/`execTimerFire` — the `done` closure of `Plugin.prototype.exec`
  with its `completed` flag and timeout timer.
* `addPlugin`, `callWithCallbackOrNextTick`, `rootLoadedCallback`,
  `loadedSoFar` — direct translations of the corresponding functions.
-/

/-- Errors of the engine: user-raised plugin failures and the error classes
constructed in src/lib/errors (`AVV_ERR_READY_TIMEOUT` carries the plugin
name and, via its `fn` field, a tag for the offending function). -/
inductive Err where
  | user (n : Nat)
  | timeout (name : String) (fnTag : String)
  | rootBooted
  | pluginNotValid
  | alreadyLoaded (pluginName : String) (parentName : String)
  | callbackNotFn (key : String)
  deriving DecidableEq, Repr

/-- Observable events of a boot run.
`skipped` — `exec` short-circuited (src/lib/plugin.js:59-63), the body was
never invoked; `start` — the `start` emit plus invocation of the plugin
function (src/lib/plugin.js:117-119); `afterObserved` — the `_after`
wrapper read the orchestrator's ambient error inside
`callWithCallbackOrNextTick` (src/boot.js:236-238,399-401); `done` — the
`exec` completion callback ran with the given error and recorded it on the
plugin (src/lib/plugin.js:83-104); `loaded` — `finish` emitted `loaded`
and invoked its callback with the given error (src/lib/plugin.js:180-190);
`soFarObserved` — the synthetic observer installed by `loadedSoFar`
(src/lib/plugin.js:135-152) ran mid-body, read the ambient error, re-paused
the child queue and settled the partial-completion promise. -/
inductive Ev where
  | skipped (id : Nat)
  | start (id : Nat)
  | afterObserved (id : Nat) (e : Option Err)
  | done (id : Nat) (e : Option Err)
  | loaded (id : Nat) (e : Option Err)
  | soFarObserved (id : Nat) (e : Option Err)
  deriving DecidableEq, Repr

/-- A boot unit: its identity, whether it is an after-unit, the completion
error of its body when the body runs (`res` for a plain plugin, `afterRes`
for the result the after-continuation completes with), whether the
continuation uses the 0-parameter convention that re-arms the ambient error
(src/boot.js:405-407), and the children it registers while executing. -/
inductive PNode where
  | mk (id : Nat) ( isAfter : Bool) (res : Option Err) (afterRes : Option Err)
      (rearms : Bool) (children : List PNode)
  deriving Repr

/-- Identity of a boot unit. -/
def PNode.id : PNode → Nat
  | .mk i _ _ _ _ _ => i

/-- Whether the unit is an after-unit. -/
def PNode.isAfter : PNode → Bool
  | .mk _ a _ _ _ _ => a

/-- Result of running part of a boot tree: the orchestrator's ambient
`_error` afterwards, the event trace, and each completed plugin's final
`_error` field in completion order. -/
structure RunOut where
  ambient : Option Err
  trace : List Ev
  recs : List (Nat × Option Err)
  deriving DecidableEq, Repr

mutual

/-- One plugin's `loadPlugin` → `exec` → `finish` cycle
(src/lib/plugin.js:54-128,178-234,258-281), given the orchestrator's
ambient `_error`.

`exec` first tests `this.parent._error && !this.isAfter` and, when it
holds, signals completion with no error without invoking the body; the
plugin's own `_error` stays `null`, `finish` sees no error and an empty
queue and marks the unit loaded.  An after-unit runs the `_after` wrapper,
which reads the ambient error (clearing it, or re-arming it for the
0-parameter convention) and completes with the continuation's result.  A
plain unit runs its body.  When `exec` settles with an error, `finish`
never resumes the child queue (src/lib/plugin.js:192-199), marks the unit
loaded and the fastq task callback records the error on the orchestrator
(src/boot.js:371-375); otherwise `finish` resumes the child queue, the
children drain, and the unit is marked loaded with no error.

This interpreter covers boots in which no unit requests partial completion:
the early mid-body queue resume performed by `loadedSoFar`
(src/lib/plugin.js:151) and by `_loadRegistered` (src/boot.js:337) is
modelled by the extended interpreter `runNode2` below. -/
def runNode (amb : Option Err) : PNode → RunOut
  | .mk id isAfter res afterRes rearms children =>
    if amb.isSome && !isAfter then
      { ambient := amb,
        trace := [.skipped id, .loaded id none],
        recs := [(id, none)] }
    else if isAfter then
      let observed := amb
      let amb1 := if rearms then observed else none
      match afterRes with
      | some e =>
        { ambient := some e,
          trace := [.start id, .afterObserved id observed, .done id (some e),
            .loaded id (some e)],
          recs := [(id, some e)] }
      | none =>
        let c := runList amb1 children
        { ambient := c.ambient,
          trace := [.start id, .afterObserved id observed, .done id none]
            ++ c.trace ++ [.loaded id none],
          recs := (id, none) :: c.recs }
    else
      match res with
      | some e =>
        { ambient := some e,
          trace := [.start id, .done id (some e), .loaded id (some e)],
          recs := [(id, some e)] }
      | none =>
        let c := runList none children
        { ambient := c.ambient,
          trace := [.start id, .done id none] ++ c.trace ++ [.loaded id none],
          recs := (id, none) :: c.recs }

/-- A fastq level queue draining its plugins one at a time in FIFO order,
threading the orchestrator's ambient error from one task callback to the
next plugin's `exec`. -/
def runList (amb : Option Err) : List PNode → RunOut
  | [] => { ambient := amb, trace := [], recs := [] }
  | n :: rest =>
    let r1 := runNode amb n
    let r2 := runList r1.ambient rest
    { ambient := r2.ambient,
      trace := r1.trace ++ r2.trace,
      recs := r1.recs ++ r2.recs }

end

/-- A boot unit in the extended model that includes the partial-completion
mechanism: as in `PNode`, plus `soFar` — whether the unit's body requests
partial completion mid-body (`after()` with no argument or awaiting the
instance, reaching `Plugin.prototype.loadedSoFar` through
`_loadRegistered`) — with `childrenBefore` the children registered before
that request and `childrenAfter` the ones registered after it (for a unit
that makes no request the two lists are simply consecutive registrations
on the same queue). -/
inductive PNode2 where
  | mk (id : Nat) ( isAfter : Bool) (res : Option Err) (afterRes : Option Err)
      (rearms : Bool) (soFar : Bool) (childrenBefore : List PNode2)
      (childrenAfter : List PNode2)
  deriving Repr

mutual

/-- The plugin cycle of `runNode` extended with the partial-completion
path of `Plugin.prototype.loadedSoFar` (src/lib/plugin.js:130-170): when
the body requests partial completion, `setup` registers a synthetic
observer on the unit's own queue behind the children registered so far and
calls `this.q.resume()` at src/lib/plugin.js:151 — while the body is still
executing — so those children drain before the body's `done`.  The
observer then reads the ambient error, re-pauses the queue
(src/lib/plugin.js:138), settles the partial-completion promise and
completes with the observed error.  A rejected promise makes the awaiting
body fail with that error and the later children never start; a resolved
promise lets the body continue, register `childrenAfter` and complete with
its own result, after which `finish` resumes the queue as usual. -/
def runNode2 (amb : Option Err) : PNode2 → RunOut
  | .mk id isAfter res afterRes rearms soFar cb ca =>
    if amb.isSome && !isAfter then
      { ambient := amb,
        trace := [.skipped id, .loaded id none],
        recs := [(id, none)] }
    else if isAfter then
      let observed := amb
      let amb1 := if rearms then observed else none
      match afterRes with
      | some e =>
        { ambient := some e,
          trace := [.start id, .afterObserved id observed, .done id (some e),
            .loaded id (some e)],
          recs := [(id, some e)] }
      | none =>
        let c1 := runList2 amb1 cb
        let c2 := runList2 c1.ambient ca
        { ambient := c2.ambient,
          trace := [.start id, .afterObserved id observed, .done id none]
            ++ c1.trace ++ c2.trace ++ [.loaded id none],
          recs := (id, none) :: (c1.recs ++ c2.recs) }
    else
      if soFar then
        let c1 := runList2 none cb
        match c1.ambient with
        | some e2 =>
          { ambient := some e2,
            trace := [.start id] ++ c1.trace
              ++ [.soFarObserved id (some e2), .done id (some e2),
                .loaded id (some e2)],
            recs := c1.recs ++ [(id, some e2)] }
        | none =>
          match res with
          | some e =>
            { ambient := some e,
              trace := [.start id] ++ c1.trace
                ++ [.soFarObserved id none, .done id (some e),
                  .loaded id (some e)],
              recs := c1.recs ++ [(id, some e)] }
          | none =>
            let c2 := runList2 none ca
            { ambient := c2.ambient,
              trace := [.start id] ++ c1.trace
                ++ [.soFarObserved id none, .done id none]
                ++ c2.trace ++ [.loaded id none],
              recs := c1.recs ++ (id, none) :: c2.recs }
      else
        match res with
        | some e =>
          { ambient := some e,
            trace := [.start id, .done id (some e), .loaded id (some e)],
            recs := [(id, some e)] }
        | none =>
          let c1 := runList2 none cb
          let c2 := runList2 c1.ambient ca
          { ambient := c2.ambient,
            trace := [.start id, .done id none] ++ c1.trace ++ c2.trace
              ++ [.loaded id none],
            recs := (id, none) :: (c1.recs ++ c2.recs) }

/-- A fastq level queue in the extended model, as `runList`. -/
def runList2 (amb : Option Err) : List PNode2 → RunOut
  | [] => { ambient := amb, trace := [], recs := [] }
  | n :: rest =>
    let r1 := runNode2 amb n
    let r2 := runList2 r1.ambient rest
    { ambient := r2.ambient,
      trace := r1.trace ++ r2.trace,
      recs := r1.recs ++ r2.recs }

end

/-- Fields of a freshly constructed `Plugin` (src/lib/plugin.js:31-50):
the child queue is created and immediately paused, nothing has started or
loaded, there is no captured error and no partial-completion promise. -/
structure PluginFields where
  started : Bool
  qPaused : Bool
  loaded : Bool
  hasPromise : Bool
  errorField : Option Err
  deriving DecidableEq, Repr

/-- The `Plugin` constructor's initial state. -/
def pluginNew : PluginFields :=
  { started := false, qPaused := true, loaded := false, hasPromise := false,
    errorField := none }

/-- Phase of the `finish` loop of a plugin whose body settled without
error (src/lib/plugin.js:201-233): a `check` microtask is scheduled, or
the queue is draining with `q.drain` armed, or a pending partial-completion
promise was just resolved and `check` re-runs after it settles, or the
plugin was marked loaded. -/
inductive FinPhase where
  | checking
  | draining
  | promiseWait
  | finished
  deriving DecidableEq, Repr

/-- State of the `finish` loop: queue length, in-flight count, pending
partial-completion promise, `loaded` flag, and counters of children
registered and executed since `finish` began. -/
structure FinState where
  qlen : Nat
  running : Nat
  hasPromise : Bool
  loaded : Bool
  registered : Nat
  executed : Nat
  phase : FinPhase
  deriving DecidableEq, Repr

/-- One scheduling round of the `finish` loop.  First `inj` new children
register on the still-unloaded plugin's queue (registrations against a
loaded plugin throw in `_addPlugin` and are therefore not counted once the
plugin is finished).  Then: `check` (src/lib/plugin.js:201-227) tests
`q.length() === 0 && q.running() === 0`; when the queue is empty and idle
it resolves a pending partial-completion promise and re-runs `check` after
it settles, else marks the plugin loaded; when the queue is busy it arms
`q.drain` with a one-shot continuation that re-schedules `check`.  While
draining, the queue starts one child at a time and the drain signal fires
when the last child's callback leaves the queue empty. -/
def finStep (inj : Nat) (s : FinState) : FinState :=
  match s.phase with
  | .finished => s
  | .checking =>
    let s := { s with qlen := s.qlen + inj, registered := s.registered + inj }
    if s.qlen = 0 ∧ s.running = 0 then
      if s.hasPromise then
        { s with hasPromise := false, phase := .promiseWait }
      else
        { s with loaded := true, phase := .finished }
    else
      { s with phase := .draining }
  | .promiseWait =>
    let s := { s with qlen := s.qlen + inj, registered := s.registered + inj }
    { s with phase := .checking }
  | .draining =>
    let s := { s with qlen := s.qlen + inj, registered := s.registered + inj }
    if s.running = 1 then
      let s := { s with running := 0, executed := s.executed + 1 }
      if s.qlen = 0 then { s with phase := .checking } else s
    else if s.qlen = 0 then
      { s with phase := .checking }
    else
      { s with qlen := s.qlen - 1, running := 1 }

/-- State of `finish` right after the plugin's body settled without error:
`c` children are queued, a partial-completion promise may be pending, and
`queueMicrotask(check)` was just scheduled. -/
def finInit (c : Nat) (p : Bool) : FinState :=
  { qlen := c, running := 0, hasPromise := p, loaded := false,
    registered := 0, executed := 0, phase := .checking }

/-- Run the `finish` loop for a round per entry of `injs`, where each entry
is the number of children registered during that round. -/
def finRun (s : FinState) (injs : List Nat) : FinState :=
  injs.foldl (fun s i => finStep i s) s

/-- The ready queue (src/boot.js:152-156): a fastq created paused by
`createQueue`, with its drain handler emitting `start` and then replacing
itself with `noop`.  `tasks` are the queued ready continuations, `ran` the
continuations executed so far in order, `startEmits` counts `start`
emissions, `drainIsNoop` records whether the drain handler was replaced. -/
structure ReadyQ where
  tasks : List Nat
  paused : Bool
  drainIsNoop : Bool
  startEmits : Nat
  ran : List Nat
  deriving DecidableEq, Repr

/-- The `_readyQ` right after the Avvio constructor ran. -/
def readyQInit : ReadyQ :=
  { tasks := [], paused := true, drainIsNoop := false, startEmits := 0,
    ran := [] }

/-- The ready queue's drain signal: the handler installed at
src/boot.js:152-156 emits `start` and sets `this._readyQ.drain = noop`;
once replaced, further drain signals do nothing. -/
def fireReadyDrain (q : ReadyQ) : ReadyQ :=
  if q.drainIsNoop then q
  else { q with startEmits := q.startEmits + 1, drainIsNoop := true }

/-- Run the head task of an unpaused ready queue; when the queue empties
the drain signal fires. -/
def rqRunHead (q : ReadyQ) : ReadyQ :=
  if q.paused then q
  else
    match q.tasks with
    | [] => q
    | t :: rest =>
      let q := { q with tasks := rest, ran := q.ran ++ [t] }
      if rest.isEmpty then fireReadyDrain q else q

/-- Events against the ready queue: `push` from `ready(fn)`
(src/boot.js:293,299), `resume` from the root-loaded callback
(src/boot.js:188), and a scheduling round that lets the queue run its
head task. -/
inductive RQEv where
  | push (t : Nat)
  | resume
  | tick
  deriving DecidableEq, Repr

/-- fastq semantics of the ready queue: `push` appends; `resume` unpauses
and, when the queue is already empty, immediately raises the drain signal;
a round runs the head task. -/
def rqStep (q : ReadyQ) : RQEv → ReadyQ
  | .push t => { q with tasks := q.tasks ++ [t] }
  | .resume =>
    if q.paused then
      let q := { q with paused := false }
      if q.tasks.isEmpty then fireReadyDrain q else q
    else q
  | .tick => rqRunHead q

/-- Run the ready queue from construction through a sequence of events. -/
def rqRun (evs : List RQEv) : ReadyQ :=
  evs.foldl rqStep readyQInit

/-- The ready continuations registered by a sequence of events, in order. -/
def rqPushes (evs : List RQEv) : List Nat :=
  evs.filterMap (fun e => match e with | .push t => some t | _ => none)

/-- The close queue (src/boot.js:157-161): a fastq created paused, whose
drain handler emits `close` and then sets `this._readyQ.drain = noop` —
the ready queue's field, not its own (src/boot.js:160). -/
structure CloseQ where
  tasks : List Nat
  paused : Bool
  closeDrainIsNoop : Bool
  readyDrainIsNoop : Bool
  closeEmits : Nat
  ran : List Nat
  deriving DecidableEq, Repr

/-- The `_closeQ` right after the Avvio constructor ran. -/
def closeQInit : CloseQ :=
  { tasks := [], paused := true, closeDrainIsNoop := false,
    readyDrainIsNoop := false, closeEmits := 0, ran := [] }

/-- The close queue's drain signal, as written at src/boot.js:157-161:
emit `close`, then replace `this._readyQ.drain` — not `this._closeQ.drain`
— with `noop`.  The close queue's own drain handler is never replaced. -/
def fireCloseDrain (q : CloseQ) : CloseQ :=
  if q.closeDrainIsNoop then q
  else { q with closeEmits := q.closeEmits + 1, readyDrainIsNoop := true }

/-- Run the head task of an unpaused close queue; when the queue empties
the drain signal fires. -/
def cqRunHead (q : CloseQ) : CloseQ :=
  if q.paused then q
  else
    match q.tasks with
    | [] => q
    | t :: rest =>
      let q := { q with tasks := rest, ran := q.ran ++ [t] }
      if rest.isEmpty then fireCloseDrain q else q

/-- Events against the close queue: `push` from `close(fn)`
(src/boot.js:281), `unshift` from `onClose(fn)` (src/boot.js:252),
`resume` from the `process.nextTick(resume)` scheduled by `close`
(src/boot.js:282), and a scheduling round. -/
inductive CQEv where
  | push (t : Nat)
  | unshift (t : Nat)
  | resume
  | tick
  deriving DecidableEq, Repr

/-- fastq semantics of the close queue. -/
def cqStep (q : CloseQ) : CQEv → CloseQ
  | .push t => { q with tasks := q.tasks ++ [t] }
  | .unshift t => { q with tasks := t :: q.tasks }
  | .resume =>
    if q.paused then
      let q := { q with paused := false }
      if q.tasks.isEmpty then fireCloseDrain q else q
    else q
  | .tick => cqRunHead q

/-- Run the close queue from construction through a sequence of events. -/
def cqRun (evs : List CQEv) : CloseQ :=
  evs.foldl cqStep closeQInit

/-- State of the `done` closure of `Plugin.prototype.exec`
(src/lib/plugin.js:54-116): the `completed` flag, whether the timeout
timer is still pending, the plugin's recorded `_error`, and the arguments
of every invocation of the exec callback so far. -/
structure ExecCb where
  completed : Bool
  timerActive : Bool
  pluginError : Option Err
  delivered : List (Option Err)
  deriving DecidableEq, Repr

/-- The closure state when `exec` starts a plugin with the given timeout:
the timer is armed only when `this.timeout > 0` (src/lib/plugin.js:106). -/
def execInit (timeout : Nat) : ExecCb :=
  { completed := false, timerActive := decide (0 < timeout), pluginError := none,
    delivered := [] }

/-- The `done` closure (src/lib/plugin.js:83-104): a second invocation
returns immediately; the first records the error on the plugin, sets
`completed`, clears the timer and invokes the exec callback once. -/
def execDone (st : ExecCb) (err : Option Err) : ExecCb :=
  if st.completed then st
  else
    { completed := true, timerActive := false, pluginError := err,
      delivered := st.delivered ++ [err] }

/-- The timeout timer (src/lib/plugin.js:108-114): on expiry it nulls
itself and calls `done` with an `AVV_ERR_READY_TIMEOUT` tagged, through
its `fn` field, with the plugin's function. -/
def execTimerFire (name : String) (fnTag : String) (st : ExecCb) : ExecCb :=
  if st.timerActive then
    execDone { st with timerActive := false } (some (.timeout name fnTag))
  else st

/-- Events delivered to the `done` closure: the timer firing, or an
invocation of the completion callback (genuine or repeated). -/
inductive ExecEv where
  | timerExpires (name : String) (fnTag : String)
  | callbackCall (err : Option Err)
  deriving DecidableEq, Repr

/-- Run the `done` closure through a sequence of events. -/
def execRun (st : ExecCb) (evs : List ExecEv) : ExecCb :=
  evs.foldl
    (fun st e =>
      match e with
      | .timerExpires name fnTag => execTimerFire name fnTag st
      | .callbackCall err => execDone st err)
    st

/-- What a value registered as a plugin can be, as classified by
`validatePluginFunction` (src/lib/plugin.js:243-255). -/
inductive FuncKind where
  | fn
  | thenable
  | objDefaultFn
  | notAFunc
  deriving DecidableEq, Repr

/-- Translation of `validatePluginFunction`: an object with a function
`default` is unwrapped, a function or thenable is accepted, anything else
raises `AVV_ERR_PLUGIN_NOT_VALID`. -/
def validatePluginFunction : FuncKind → Except Err FuncKind
  | .fn => .ok .fn
  | .thenable => .ok .thenable
  | .objDefaultFn => .ok .fn
  | .notAFunc => .error .pluginNotValid

/-- The orchestrator state `_addPlugin` reads: the `booted` flag, the
currently open plugin `this._current[0]` (its name, its `loaded` flag and
its queue of enqueued plugin names). -/
structure RegState where
  booted : Bool
  currentName : String
  currentLoaded : Bool
  currentQueue : List String
  deriving DecidableEq, Repr

/-- Translation of `Avvio.prototype._addPlugin` (src/boot.js:347-378):
validate the function, throw `AVV_ERR_ROOT_PLG_BOOTED` when the
orchestrator is booted, throw an `Error` when the current plugin has
already loaded, otherwise enqueue the new plugin at the end of the current
plugin's queue. -/
def addPlugin (st : RegState) (k : FuncKind) (pluginName : String) :
    Except Err RegState :=
  match validatePluginFunction k with
  | .error e => .error e
  | .ok _ =>
    if st.booted then .error .rootBooted
    else if st.currentLoaded then
      .error (.alreadyLoaded pluginName st.currentName)
    else .ok { st with currentQueue := st.currentQueue ++ [pluginName] }

/-- Shape of the value returned by a ready/after continuation, as tested
by `executeWithThenable` (src/lib/thenable.js): a genuine thenable, the
avvio mock thenable (carrying the `kAvvio` marker), a plain value, or a
nullish value. -/
inductive RetKind where
  | thenable
  | avvWrapped
  | plain
  | nullish
  deriving DecidableEq, Repr

/-- How the continuation's completion is signalled: when a returned
awaitable settles, on the next scheduling tick, or through the `done`
callback handed to the continuation. -/
inductive Completion where
  | onSettle
  | nextTick
  | viaDone
  deriving DecidableEq, Repr

/-- The argument list a ready/after continuation is invoked with. -/
inductive CallArgs where
  | noArgs
  | errOnly (e : Option Err)
  | errDone (e : Option Err)
  | errCtxDone (e : Option Err)
  deriving DecidableEq, Repr

/-- Observable outcome of `callWithCallbackOrNextTick`: the arguments the
continuation received, the orchestrator's `_error` after the synchronous
part of the dispatch, and how completion will be signalled. -/
structure CwcResult where
  args : CallArgs
  ambientAfter : Option Err
  completion : Completion
  deriving DecidableEq, Repr

/-- Translation of `executeWithThenable` (src/lib/thenable.js): a genuine
thenable defers completion until it settles; the avvio mock thenable and
every other result complete on the next tick. -/
def executeWithThenable (ret : RetKind) : Completion :=
  match ret with
  | .thenable => .onSettle
  | _ => .nextTick

/-- Translation of `callWithCallbackOrNextTick` (src/boot.js:399-421):
the ambient error is read and cleared; a 0-parameter continuation is
invoked with no arguments after the ambient error is re-armed; a
1-parameter continuation receives the ambient error; 2- and 3-parameter
continuations receive `(error, done)` and `(error, context, done)`, going
through `setupTimeout` when a global timeout is configured (which passes
the same arguments with a guarded `done`). -/
def callWithCallbackOrNextTick (timeout : Nat) (ambient : Option Err)
    (arity : Nat) (ret : RetKind) : CwcResult :=
  let error := ambient
  if arity = 0 then
    { args := .noArgs, ambientAfter := error,
      completion := executeWithThenable ret }
  else if arity = 1 then
    { args := .errOnly error, ambientAfter := none,
      completion := executeWithThenable ret }
  else if timeout = 0 then
    if arity = 2 then
      { args := .errDone error, ambientAfter := none, completion := .viaDone }
    else
      { args := .errCtxDone error, ambientAfter := none,
        completion := .viaDone }
  else
    if arity = 2 then
      { args := .errDone error, ambientAfter := none, completion := .viaDone }
    else
      { args := .errCtxDone error, ambientAfter := none,
        completion := .viaDone }

/-- Orchestrator state read and written by the callback passed to
`loadPlugin` for the root plugin (src/boot.js:171-189). -/
structure BootFinishState where
  errorField : Option Err
  booted : Bool
  readyQLen : Nat
  readyQResumed : Bool
  deriving DecidableEq, Repr

/-- Outcome of the root-loaded callback: either an error was thrown out of
the callback (crashing the tick), or it returned normally. -/
inductive BootFinishOutcome where
  | thrown (e : Err) (st : BootFinishState)
  | normal (st : BootFinishState)
  deriving DecidableEq, Repr

/-- Translation of the root plugin's completion callback
(src/boot.js:171-189): `error = error || this._error || prereadyError`
when the `preReady` emit threw; a present error is stored on the
orchestrator and, when the ready queue is empty, thrown (so the resume is
never reached); otherwise the ready queue is resumed, with `booted` set
only on the success path. -/
def rootLoadedCallback (st : BootFinishState) (loadError : Option Err)
    (preReadyError : Option Err) : BootFinishOutcome :=
  let error :=
    match preReadyError with
    | none => loadError
    | some pe =>
      match loadError with
      | some e => some e
      | none =>
        match st.errorField with
        | some e => some e
        | none => some pe
  match error with
  | some e =>
    let st := { st with errorField := some e }
    if st.readyQLen = 0 then .thrown e st
    else .normal { st with readyQResumed := true }
  | none => .normal { st with booted := true, readyQResumed := true }

/-- Plugin state read by `loadedSoFar`: the `loaded` flag and whether a
partial-completion promise (`this._promise`) is already pending. -/
structure PluginSoFar where
  loaded : Bool
  hasPromise : Bool
  hasServer : Bool
  deriving DecidableEq, Repr

/-- Which awaitable `loadedSoFar` returns: an already-resolved promise
(`Promise.resolve()`), or the pending partial-completion promise that
tracks the plugin's actual drain or failure. -/
inductive SoFarResult where
  | resolvedNow
  | trackingPromise
  deriving DecidableEq, Repr

/-- Translation of `Plugin.prototype.loadedSoFar`
(src/lib/plugin.js:130-170): a loaded plugin yields `Promise.resolve()`;
otherwise, when no promise is pending a fresh tracking promise is created
(and its observer installed now or on the `start` event) and returned;
when a promise is already pending, `Promise.resolve()` is returned and the
pending promise is left untouched. -/
def loadedSoFar (p : PluginSoFar) : PluginSoFar × SoFarResult :=
  if p.loaded then (p, .resolvedNow)
  else if !p.hasPromise then
    ({ p with hasPromise := true }, .trackingPromise)
  else (p, .resolvedNow)

/-- Invariant of the `finish` loop of a plugin whose body settled without
error and whose queue held `c` children when the loop began: the executed,
queued and in-flight children account exactly for the initial and
late-registered ones, at most one child is in flight, and a loaded plugin
is in the terminal phase with an empty, idle queue and no pending
partial-completion promise. -/
def FinInv (c : Nat) (s : FinState) : Prop :=
  s.executed + s.qlen + s.running = c + s.registered
  ∧ s.running ≤ 1
  ∧ (s.loaded = true ↔ s.phase = .finished)
  ∧ (s.loaded = true →
      s.qlen = 0 ∧ s.running = 0 ∧ s.hasPromise = false)

/-- Whether an event sequence contains a `resume` of the ready queue. -/
def hasResume (evs : List RQEv) : Bool :=
  evs.any (fun e => match e with | .resume => true | _ => false)

/-- Invariant of the ready queue: `start` is emitted at most once and
exactly when the drain handler has replaced itself with `noop`, the
executed and still-queued continuations are precisely the pushed ones in
FIFO order, and before the first `resume` the queue is still paused and
nothing has run. -/
def RQInv (pushed : List Nat) (resumed : Bool) (q : ReadyQ) : Prop :=
  q.startEmits ≤ 1
  ∧ (q.drainIsNoop = true ↔ q.startEmits = 1)
  ∧ q.ran ++ q.tasks = pushed
  ∧ (resumed = false → q.paused = true ∧ q.ran = [] ∧ q.startEmits = 0)

/-- Invariant of the `done` closure of `exec`: before completion nothing
was delivered; after completion exactly one result was delivered and the
timer is cleared. -/
def ExecInv (st : ExecCb) : Prop :=
  (st.completed = false → st.delivered = [])
  ∧ (st.completed = true → st.delivered.length = 1 ∧ st.timerActive = false)

/-- A completed `done` closure with a cleared timer never changes again:
late callback invocations and timer expiries are discarded. -/
theorem execRun_frozen (evs : List ExecEv) : ∀ st : ExecCb,
    st.completed = true → st.timerActive = false → execRun st evs = st := by
  induction evs with
  | nil => intro st hc ht; rfl
  | cons e rest ih =>
    intro st hc ht
    have hstep : execRun st (e :: rest) =
        execRun (match e with
          | .timerExpires n f => execTimerFire n f st
          | .callbackCall err => execDone st err) rest := rfl
    rw [hstep]
    cases e with
    | timerExpires n f =>
      simp only [execTimerFire, ht, Bool.false_eq_true, if_false]
      exact ih st hc ht
    | callbackCall err =>
      simp only [execDone, hc, if_true]
      exact ih st hc ht

/-- One event preserves the at-most-once-delivery invariant of `done`. -/
theorem execStep_inv {st : ExecCb} (h : ExecInv st) (e : ExecEv) :
    ExecInv (match e with
      | .timerExpires n f => execTimerFire n f st
      | .callbackCall err => execDone st err) := by
  obtain ⟨h1, h2⟩ := h
  cases e with
  | timerExpires n f =>
    by_cases ha : st.timerActive = true
    · have hc : st.completed = false := by
        by_contra hcc
        have := (h2 (by simpa using hcc)).2
        rw [this] at ha
        exact Bool.false_ne_true ha
      simp [execTimerFire, ha, execDone, hc, ExecInv, h1 hc]
    · have ha2 : st.timerActive = false := by simpa using ha
      simp only [execTimerFire, ha2, Bool.false_eq_true, if_false]
      exact ⟨h1, h2⟩
  | callbackCall err =>
    by_cases hc : st.completed = true
    · simp only [execDone, hc, if_true]
      exact ⟨h1, h2⟩
    · have hcf : st.completed = false := by simpa using hc
      simp [execDone, hcf, ExecInv, h1 hcf]

/-- The at-most-once-delivery invariant holds along any event sequence. -/
theorem execRun_inv (evs : List ExecEv) : ∀ st : ExecCb,
    ExecInv st → ExecInv (execRun st evs) := by
  induction evs with
  | nil => intro st h; exact h
  | cons e rest ih =>
    intro st h
    exact ih _ (execStep_inv h e)

/-- Claim C6: for a unit with a positive configured timeout whose
completion callback is never invoked, the timer expiry delivers exactly
one completion result — the timeout failure tagged with the unit's
function — and every later invocation of the completion callback (genuine
or repeated) has no observable effect; in general the completion result is
delivered at most once, and a zero timeout never arms the timer. -/
theorem c6_timeout_delivered_once (t : Nat) (ht : 0 < t) (name fnTag : String)
    (evs evs2 : List ExecEv) :
    (execRun (execRun (execInit t) [ExecEv.timerExpires name fnTag]) evs).delivered
      = [some (Err.timeout name fnTag)]
    ∧ (execRun (execInit t) evs2).delivered.length ≤ 1
    ∧ (execInit 0).timerActive = false := by
  have h0 : execRun (execInit t) [ExecEv.timerExpires name fnTag] =
      { completed := true, timerActive := false,
        pluginError := some (Err.timeout name fnTag),
        delivered := [some (Err.timeout name fnTag)] } := by
    simp [execRun, execInit, execTimerFire, execDone, ht]
  refine ⟨?_, ?_, rfl⟩
  · rw [h0, execRun_frozen evs _ rfl rfl]
  · have hinv := execRun_inv evs2 (execInit t)
      ⟨fun _ => rfl, fun hc => by simp [execInit] at hc⟩
    obtain ⟨g1, g2⟩ := hinv
    by_cases hcc : (execRun (execInit t) evs2).completed = true
    · simp [(g2 hcc).1]
    · simp [g1 (by simpa using hcc)]

/-- Witness for C6: with timeout 5, the timer expiry delivers the tagged
timeout failure and a late genuine callback is ignored. -/
theorem c6_timeout_delivered_once_witness :
    0 < 5 ∧ (execRun (execRun (execInit 5) [ExecEv.timerExpires "plugin-a" "fnA"])
      [ExecEv.callbackCall none]).delivered = [some (Err.timeout "plugin-a" "fnA")] :=
  ⟨by decide,
    (c6_timeout_delivered_once 5 (by decide) "plugin-a" "fnA"
      [ExecEv.callbackCall none] []).1⟩

/-- Claim C5: the close queue's drain handler as written at
src/boot.js:157-161 replaces `this._readyQ.drain` — not its own handler —
with `noop`, so the `close` event is emitted again on every later drain:
two sequential `close()` invocations emit `close` twice, contradicting the
adjacent comment "close event should be emitted once only". -/
theorem c5_close_drain_never_nooped :
    (cqRun [CQEv.push 0, CQEv.resume, CQEv.tick, CQEv.push 1, CQEv.tick]).closeEmits = 2
    ∧ (cqRun [CQEv.push 0, CQEv.resume, CQEv.tick, CQEv.push 1, CQEv.tick]).closeDrainIsNoop
        = false
    ∧ (cqRun [CQEv.push 0, CQEv.resume, CQEv.tick, CQEv.push 1, CQEv.tick]).readyDrainIsNoop
        = true
    ∧ (cqRun [CQEv.push 0, CQEv.resume, CQEv.tick, CQEv.push 1, CQEv.tick]).ran = [0, 1] := by
  decide

/-- Claim C7: a registration attempt on a booted orchestrator raises
`AVV_ERR_ROOT_PLG_BOOTED`, a registration attempt targeting an
already-loaded current plugin raises an error naming both plugins, and a
plugin is enqueued only when neither failure applies. -/
theorem c7_registration_fails_fast (st : RegState) (k k2 : FuncKind)
    (name : String) (hv : validatePluginFunction k = .ok k2) :
    (st.booted = true → addPlugin st k name = .error .rootBooted)
    ∧ (st.booted = false → st.currentLoaded = true →
        addPlugin st k name = .error (.alreadyLoaded name st.currentName))
    ∧ (∀ st2, addPlugin st k name = .ok st2 →
        st.booted = false ∧ st.currentLoaded = false ∧
        st2.currentQueue = st.currentQueue ++ [name]) := by
  refine ⟨?_, ?_, ?_⟩
  · intro hb
    simp [addPlugin, hv, hb]
  · intro hb hl
    simp [addPlugin, hv, hb, hl]
  · intro st2 hok
    simp only [addPlugin, hv] at hok
    by_cases hb : st.booted = true
    · simp [hb] at hok
    · by_cases hl : st.currentLoaded = true
      · simp [hb, hl] at hok
      · simp only [hb, Bool.false_eq_true, if_false, hl] at hok
        refine ⟨by simpa using hb, by simpa using hl, ?_⟩
        simp only [Except.ok.injEq] at hok
        rw [← hok]

/-- Witness for C7: registering on a booted orchestrator fails with the
root-already-booted error. -/
theorem c7_registration_fails_fast_witness :
    addPlugin { booted := true, currentName := "root", currentLoaded := false,
                currentQueue := [] } .fn "plugin-x" = .error .rootBooted :=
  (c7_registration_fails_fast
    { booted := true, currentName := "root", currentLoaded := false,
      currentQueue := [] } .fn .fn "plugin-x" rfl).1 rfl

/-- Claim C8: the normalizer dispatches on declared parameter count — a
0-parameter continuation is invoked with no arguments and the ambient
error is re-armed; a 1-parameter continuation receives the ambient error,
which is consumed; 2- and 3-parameter continuations receive
`(error, done)` and `(error, context, done)` whatever the configured
timeout; for the argument-free conventions a returned awaitable defers
completion until it settles and any other result completes on the next
tick. -/
theorem c8_arity_dispatch (t : Nat) (amb : Option Err) (ret : RetKind) :
    (callWithCallbackOrNextTick t amb 0 ret =
      { args := .noArgs, ambientAfter := amb,
        completion := executeWithThenable ret })
    ∧ (callWithCallbackOrNextTick t amb 1 ret =
      { args := .errOnly amb, ambientAfter := none,
        completion := executeWithThenable ret })
    ∧ (callWithCallbackOrNextTick t amb 2 ret =
      { args := .errDone amb, ambientAfter := none, completion := .viaDone })
    ∧ (callWithCallbackOrNextTick t amb 3 ret =
      { args := .errCtxDone amb, ambientAfter := none, completion := .viaDone })
    ∧ (executeWithThenable .thenable = .onSettle)
    ∧ (executeWithThenable .avvWrapped = .nextTick)
    ∧ (executeWithThenable .plain = .nextTick) := by
  refine ⟨?_, ?_, ?_, ?_, rfl, rfl, rfl⟩
  · simp [callWithCallbackOrNextTick]
  · simp [callWithCallbackOrNextTick]
  · by_cases htz : t = 0 <;> simp [callWithCallbackOrNextTick, htz]
  · by_cases htz : t = 0 <;> simp [callWithCallbackOrNextTick, htz]

/-- Claim C9: when the root unit settles with an error and the ready queue
is empty, the error is recorded and thrown out of the completion callback
(the resume is never reached); when at least one ready continuation is
registered, the error is stored as the ambient error and the ready queue
is resumed to deliver it; on success the orchestrator is booted and the
ready queue resumed. -/
theorem c9_uncaught_boot_failure (st : BootFinishState) (e : Err) :
    (st.readyQLen = 0 → rootLoadedCallback st (some e) none =
        .thrown e { st with errorField := some e })
    ∧ (0 < st.readyQLen → rootLoadedCallback st (some e) none =
        .normal { st with errorField := some e, readyQResumed := true })
    ∧ (rootLoadedCallback st none none =
        .normal { st with booted := true, readyQResumed := true }) := by
  refine ⟨?_, ?_, rfl⟩
  · intro h0
    simp [rootLoadedCallback, h0]
  · intro hpos
    have hne : ¬st.readyQLen = 0 := by omega
    simp [rootLoadedCallback, hne]

/-- Witness for C9: a root failure with an empty ready queue is thrown. -/
theorem c9_uncaught_boot_failure_witness :
    rootLoadedCallback
      { errorField := none, booted := false, readyQLen := 0,
        readyQResumed := false } (some (Err.user 3)) none =
    .thrown (Err.user 3)
      { errorField := some (Err.user 3), booted := false, readyQLen := 0,
        readyQResumed := false } :=
  (c9_uncaught_boot_failure
    { errorField := none, booted := false, readyQLen := 0,
      readyQResumed := false } (Err.user 3)).1 rfl

/-- Claim C10: calling `loadedSoFar` on a not-yet-loaded plugin while a
partial-completion promise is already pending returns a fresh
already-resolved promise and leaves the pending promise untouched; only
the first concurrent caller receives the tracking promise. -/
theorem c10_pending_promise_not_shared (p : PluginSoFar) :
    (p.loaded = false → p.hasPromise = true → loadedSoFar p = (p, .resolvedNow))
    ∧ (p.loaded = false → p.hasPromise = false →
        loadedSoFar p = ({ p with hasPromise := true }, .trackingPromise))
    ∧ (p.loaded = true → loadedSoFar p = (p, .resolvedNow)) := by
  refine ⟨?_, ?_, ?_⟩
  · intro h1 h2
    simp [loadedSoFar, h1, h2]
  · intro h1 h2
    simp [loadedSoFar, h1, h2]
  · intro h1
    simp [loadedSoFar, h1]

/-- Witness for C10: a second concurrent caller gets the already-resolved
promise while the pending tracking promise stays in place. -/
theorem c10_pending_promise_not_shared_witness :
    loadedSoFar { loaded := false, hasPromise := true, hasServer := true } =
      ({ loaded := false, hasPromise := true, hasServer := true },
        .resolvedNow) :=
  (c10_pending_promise_not_shared
    { loaded := false, hasPromise := true, hasServer := true }).1 rfl rfl

/-- Claim C1: under a pending ambient error, a non-after unit is a pure
no-op — its body is never invoked (no `start` event), it signals
completion with no error and leaves the ambient error in place; an
after-unit still executes and observes the ambient error; a failing
non-after unit records its error both on the orchestrator (ambient) and on
itself; and a whole remaining traversal of non-after units under a pending
error is nothing but no-op completions that preserve the error. -/
theorem c1_error_short_circuit (e : Err) (id : Nat) (res afterRes : Option Err)
    (rearms : Bool) (children : List PNode) :
    (runNode (some e) (.mk id false res afterRes rearms children) =
      { ambient := some e, trace := [.skipped id, .loaded id none],
        recs := [(id, none)] })
    ∧ ((runNode (some e) (.mk id true res afterRes rearms children)).trace.take 2 =
        [.start id, .afterObserved id (some e)])
    ∧ (runNode none (.mk id false (some e) afterRes rearms children) =
        { ambient := some e,
          trace := [.start id, .done id (some e), .loaded id (some e)],
          recs := [(id, some e)] })
    ∧ (∀ l : List PNode, (∀ n ∈ l, n.isAfter = false) →
        runList (some e) l =
          { ambient := some e,
            trace := l.flatMap (fun n => [Ev.skipped n.id, Ev.loaded n.id none]),
            recs := l.map (fun n => (n.id, none)) }) := by
  refine ⟨?_, ?_, ?_, ?_⟩
  · simp [runNode]
  · cases afterRes <;> simp [runNode]
  · simp [runNode]
  · intro l hl
    induction l with
    | nil => simp [runList]
    | cons n rest ih =>
      obtain ⟨i, a, r, ar, rm, cs⟩ := n
      have ha : a = false := by
        simpa [PNode.isAfter] using hl _ (List.mem_cons_self _ _)
      subst ha
      have hrest := ih (fun m hm => hl m (List.mem_cons_of_mem _ hm))
      simp [runList, runNode, PNode.id, hrest]

/-- Witness for C1: after one unit fails, two subsequently traversed
non-after units complete as no-ops, never run their bodies, record no
error, and the ambient error survives. -/
theorem c1_error_short_circuit_witness :
    runList (some (Err.user 0))
      [PNode.mk 1 false none none false [], PNode.mk 2 false (some (Err.user 9)) none false []] =
      { ambient := some (Err.user 0),
        trace := [Ev.skipped 1, Ev.loaded 1 none, Ev.skipped 2, Ev.loaded 2 none],
        recs := [(1, none), (2, none)] } := by
  have h := (c1_error_short_circuit (Err.user 0) 1 none none false []).2.2.2
    [PNode.mk 1 false none none false [],
     PNode.mk 2 false (some (Err.user 9)) none false []]
    (by decide)
  simpa using h

/-- Counterexample to claim C2 as stated: a unit whose body registers a
child and then requests partial completion (`await app.after()`) has its
child queue resumed mid-body by `loadedSoFar`'s `setup`
(src/lib/plugin.js:151), so the child's `start` event precedes the
parent's `done` event — a child begins executing before the parent's own
function has signaled completion, and the queue was resumed outside
`finish`. -/
theorem c2_child_starts_before_parent_done :
    (runNode2 none (PNode2.mk 1 false none none false true
        [PNode2.mk 2 false none none false false [] []] [])).trace =
      [Ev.start 1, Ev.start 2, Ev.done 2 none, Ev.loaded 2 none,
        Ev.soFarObserved 1 none, Ev.done 1 none, Ev.loaded 1 none]
    ∧ (runNode2 none (PNode2.mk 1 false none none false true
        [PNode2.mk 2 false none none false false [] []] [])).trace.indexOf
          (Ev.start 2)
      < (runNode2 none (PNode2.mk 1 false none none false true
          [PNode2.mk 2 false none none false false [] []] [])).trace.indexOf
          (Ev.done 1 none) := by
  decide

/-- Claim C2 as amended: the child queue of a freshly constructed plugin
is paused, and for a unit that makes no partial-completion request the
queue is resumed only inside `finish`, so every child event sits strictly
between the unit's `done` and `loaded` events and a failing body never
starts its children; when the unit's body does request partial completion,
the children registered so far drain mid-body — strictly between the
unit's `start` and `done` events — and the children registered afterwards
still wait for `finish`, running between `done` and `loaded`. -/
theorem c2_children_after_parent_unless_partial :
    pluginNew.qPaused = true
    ∧ (∀ (id : Nat) (afterRes : Option Err) (rearms : Bool)
        (cb ca : List PNode2),
        (runNode2 none (.mk id false none afterRes rearms false cb ca)).trace =
          [Ev.start id, Ev.done id none]
            ++ (runList2 none cb).trace
            ++ (runList2 (runList2 none cb).ambient ca).trace
            ++ [Ev.loaded id none])
    ∧ (∀ (id : Nat) (e : Err) (afterRes : Option Err) (rearms : Bool)
        (cb ca : List PNode2),
        runNode2 none (.mk id false (some e) afterRes rearms false cb ca) =
          { ambient := some e,
            trace := [Ev.start id, Ev.done id (some e), Ev.loaded id (some e)],
            recs := [(id, some e)] })
    ∧ (∀ (id : Nat) (afterRes : Option Err) (rearms : Bool)
        (cb ca : List PNode2), (runList2 none cb).ambient = none →
        (runNode2 none (.mk id false none afterRes rearms true cb ca)).trace =
          [Ev.start id] ++ (runList2 none cb).trace
            ++ [Ev.soFarObserved id none, Ev.done id none]
            ++ (runList2 none ca).trace ++ [Ev.loaded id none]) := by
  refine ⟨rfl, ?_, ?_, ?_⟩
  · intro id afterRes rearms cb ca
    simp [runNode2]
  · intro id e afterRes rearms cb ca
    simp [runNode2]
  · intro id afterRes rearms cb ca hcb
    simp [runNode2, hcb]

/-- Witness for the amended C2: child 2, registered before the
partial-completion request of unit 1, runs mid-body; child 3, registered
after it, runs only between unit 1's `done` and `loaded`. -/
theorem c2_children_after_parent_unless_partial_witness :
    (runNode2 none (PNode2.mk 1 false none none false true
        [PNode2.mk 2 false none none false false [] []]
        [PNode2.mk 3 false none none false false [] []])).trace =
      [Ev.start 1, Ev.start 2, Ev.done 2 none, Ev.loaded 2 none,
        Ev.soFarObserved 1 none, Ev.done 1 none, Ev.start 3, Ev.done 3 none,
        Ev.loaded 3 none, Ev.loaded 1 none] := by
  have h := c2_children_after_parent_unless_partial.2.2.2 1 none false
    [PNode2.mk 2 false none none false false [] []]
    [PNode2.mk 3 false none none false false [] []] (by decide)
  rw [h]
  decide

/-- One `finish`-loop round preserves the drain invariant. -/
theorem finStep_inv {c : Nat} {s : FinState} (h : FinInv c s) (inj : Nat) :
    FinInv c (finStep inj s) := by
  obtain ⟨h1, h2, h3, h4⟩ := h
  rcases s with ⟨q, r, pr, ld, reg, ex, ph⟩
  simp only [FinInv] at h1 h2 h3 h4 ⊢
  cases ph with
  | finished => exact ⟨h1, h2, h3, h4⟩
  | checking =>
    have hld : ld = false := by
      cases ld
      · rfl
      · simpa using h3.mp rfl
    subst hld
    simp only [finStep]
    split_ifs with hqr hpp <;>
      refine ⟨?_, ?_, ?_, ?_⟩ <;> simp_all <;> omega
  | promiseWait =>
    have hld : ld = false := by
      cases ld
      · rfl
      · simpa using h3.mp rfl
    subst hld
    simp only [finStep]
    refine ⟨?_, ?_, ?_, ?_⟩ <;> simp_all <;> omega
  | draining =>
    have hld : ld = false := by
      cases ld
      · rfl
      · simpa using h3.mp rfl
    subst hld
    simp only [finStep]
    split_ifs with hr1 hq0 hq0' <;>
      refine ⟨?_, ?_, ?_, ?_⟩ <;> simp_all <;> omega

/-- The drain invariant holds along any sequence of `finish` rounds. -/
theorem finRun_inv (c : Nat) (injs : List Nat) : ∀ s : FinState,
    FinInv c s → FinInv c (finRun s injs) := by
  induction injs with
  | nil => intro s h; exact h
  | cons i rest ih =>
    intro s h
    exact ih _ (finStep_inv h i)

/-- The drain invariant holds when `finish` begins. -/
theorem finInit_inv (c : Nat) (p : Bool) : FinInv c (finInit c p) := by
  refine ⟨by simp [finInit], by simp [finInit], by simp [finInit],
    by simp [finInit]⟩

/-- Claim C3: a unit whose body settled cleanly is marked loaded only with
its children queue at length zero, zero in-flight items and its pending
partial-completion promise resolved; and because the emptiness test is
re-run after every drain signal (and after a resolved promise), every
child registered before the unit is marked loaded — including during a
drain check — has been executed by the time it is loaded. -/
theorem c3_loaded_only_when_drained (c : Nat) (p : Bool) (injs : List Nat)
    (h : (finRun (finInit c p) injs).loaded = true) :
    (finRun (finInit c p) injs).qlen = 0
    ∧ (finRun (finInit c p) injs).running = 0
    ∧ (finRun (finInit c p) injs).hasPromise = false
    ∧ (finRun (finInit c p) injs).executed
        = c + (finRun (finInit c p) injs).registered := by
  obtain ⟨h1, h2, h3, h4⟩ := finRun_inv c injs (finInit c p) (finInit_inv c p)
  obtain ⟨hq, hr, hpp⟩ := h4 h
  exact ⟨hq, hr, hpp, by omega⟩

/-- Witness for C3: one initial child, a pending partial-completion
promise, and two children registered late (one during a drain round, one
after the promise resolution) — the unit loads only after executing all
three. -/
theorem c3_loaded_only_when_drained_witness :
    (finRun (finInit 1 true) [0, 0, 1, 0, 0, 0, 1, 0, 0, 0, 0]).loaded = true
    ∧ (finRun (finInit 1 true) [0, 0, 1, 0, 0, 0, 1, 0, 0, 0, 0]).executed
        = 1 + (finRun (finInit 1 true) [0, 0, 1, 0, 0, 0, 1, 0, 0, 0, 0]).registered :=
  ⟨by decide,
    (c3_loaded_only_when_drained 1 true [0, 0, 1, 0, 0, 0, 1, 0, 0, 0, 0]
      (by decide)).2.2.2⟩

/-- The ready queue's drain signal preserves the once-only invariant and
touches neither the task list nor the executed list. -/
theorem fireReadyDrain_inv {q : ReadyQ} (h1 : q.startEmits ≤ 1)
    (h2 : q.drainIsNoop = true ↔ q.startEmits = 1) :
    (fireReadyDrain q).startEmits ≤ 1
    ∧ ((fireReadyDrain q).drainIsNoop = true ↔ (fireReadyDrain q).startEmits = 1)
    ∧ (fireReadyDrain q).ran = q.ran
    ∧ (fireReadyDrain q).tasks = q.tasks
    ∧ (fireReadyDrain q).paused = q.paused := by
  unfold fireReadyDrain
  by_cases hd : q.drainIsNoop = true
  · have hone := h2.mp hd
    simp [hd, h1, hone]
  · have hne : ¬q.startEmits = 1 := fun hh => hd (h2.mpr hh)
    simp [hd]
    omega

/-- The drain signal never touches the executed list. -/
theorem fireReadyDrain_ran (q : ReadyQ) : (fireReadyDrain q).ran = q.ran := by
  unfold fireReadyDrain
  split_ifs <;> rfl

/-- The drain signal never touches the task list. -/
theorem fireReadyDrain_tasks (q : ReadyQ) :
    (fireReadyDrain q).tasks = q.tasks := by
  unfold fireReadyDrain
  split_ifs <;> rfl

/-- The drain signal never touches the paused flag. -/
theorem fireReadyDrain_paused (q : ReadyQ) :
    (fireReadyDrain q).paused = q.paused := by
  unfold fireReadyDrain
  split_ifs <;> rfl

/-- One ready-queue event preserves the ready-queue invariant. -/
theorem rqStep_inv {pushed : List Nat} {resumed : Bool} {q : ReadyQ}
    (h : RQInv pushed resumed q) (e : RQEv) :
    RQInv (pushed ++ rqPushes [e]) (resumed || hasResume [e]) (rqStep q e) := by
  obtain ⟨h1, h2, h3, h4⟩ := h
  cases e with
  | push t =>
    refine ⟨h1, h2, ?_, ?_⟩
    · simp [rqStep, rqPushes, ← h3, List.append_assoc]
    · intro hr
      have hr2 : resumed = false := by simpa [hasResume] using hr
      obtain ⟨hp, hran, hse⟩ := h4 hr2
      simp [rqStep, hp, hran, hse]
  | resume =>
    obtain ⟨g1, g2, g3, g4, g5⟩ :=
      fireReadyDrain_inv (q := { q with paused := false }) h1 h2
    refine ⟨?_, ?_, ?_, ?_⟩
    · by_cases hp : q.paused = true <;>
        by_cases he : q.tasks.isEmpty <;>
        simp_all [rqStep]
    · by_cases hp : q.paused = true <;>
        by_cases he : q.tasks.isEmpty <;>
        simp_all [rqStep]
    · by_cases hp : q.paused = true <;>
        by_cases he : q.tasks.isEmpty <;>
        simp_all [rqStep, rqPushes]
    · intro hr
      simp [hasResume] at hr
  | tick =>
    refine ⟨?_, ?_, ?_, ?_⟩
    · by_cases hp : q.paused = true
      · simpa [rqStep, rqRunHead, hp] using h1
      · rcases ht : q.tasks with _ | ⟨t, rest⟩
        · simpa [rqStep, rqRunHead, hp, ht] using h1
        · rcases rest with _ | ⟨u, rest2⟩
          · obtain ⟨g1, g2, g3, g4, g5⟩ := fireReadyDrain_inv
              (q := { q with tasks := [], ran := q.ran ++ [t] }) h1 h2
            simpa [rqStep, rqRunHead, hp, ht] using g1
          · simpa [rqStep, rqRunHead, hp, ht] using h1
    · by_cases hp : q.paused = true
      · simpa [rqStep, rqRunHead, hp] using h2
      · rcases ht : q.tasks with _ | ⟨t, rest⟩
        · simpa [rqStep, rqRunHead, hp, ht] using h2
        · rcases rest with _ | ⟨u, rest2⟩
          · obtain ⟨g1, g2, g3, g4, g5⟩ := fireReadyDrain_inv
              (q := { q with tasks := [], ran := q.ran ++ [t] }) h1 h2
            simpa [rqStep, rqRunHead, hp, ht] using g2
          · simpa [rqStep, rqRunHead, hp, ht] using h2
    · by_cases hp : q.paused = true
      · simpa [rqStep, rqRunHead, hp, rqPushes] using h3
      · rcases ht : q.tasks with _ | ⟨t, rest⟩
        · simpa [rqStep, rqRunHead, hp, ht, rqPushes] using h3
        · rcases rest with _ | ⟨u, rest2⟩
          · rw [ht] at h3
            simp [rqStep, rqRunHead, hp, ht, rqPushes, fireReadyDrain_ran,
              fireReadyDrain_tasks, ← h3]
          · rw [ht] at h3
            simp [rqStep, rqRunHead, hp, ht, rqPushes, ← h3]
    · intro hr
      have hr2 : resumed = false := by simpa [hasResume] using hr
      obtain ⟨hp, hran, hse⟩ := h4 hr2
      simp [rqStep, rqRunHead, hp, hran, hse]

/-- The ready-queue invariant holds along any event sequence. -/
theorem rqRun_inv_aux (evs : List RQEv) : ∀ (pushed : List Nat)
    (resumed : Bool) (q : ReadyQ), RQInv pushed resumed q →
    RQInv (pushed ++ rqPushes evs) (resumed || hasResume evs)
      (evs.foldl rqStep q) := by
  induction evs with
  | nil =>
    intro pushed resumed q h
    simpa [rqPushes, hasResume] using h
  | cons e rest ih =>
    intro pushed resumed q h
    have hstep := rqStep_inv h e
    have hrest := ih _ _ _ hstep
    cases e with
    | push t =>
      simpa [rqPushes, hasResume, List.append_assoc] using hrest
    | resume =>
      simpa [rqPushes, hasResume, Bool.or_assoc] using hrest
    | tick =>
      simpa [rqPushes, hasResume] using hrest

/-- Claim C4: in the ready queue, `start` is emitted at most once — the
drain handler replaces itself with `noop` exactly when the first emission
happened — the executed and still-pending ready continuations are
precisely the registered ones, each at most once and in FIFO order, and
before the boot-completion `resume` no continuation has run and no `start`
was emitted. -/
theorem c4_ready_drains_once (evs : List RQEv) :
    (rqRun evs).startEmits ≤ 1
    ∧ ((rqRun evs).drainIsNoop = true ↔ (rqRun evs).startEmits = 1)
    ∧ (rqRun evs).ran ++ (rqRun evs).tasks = rqPushes evs
    ∧ (hasResume evs = false →
        (rqRun evs).paused = true ∧ (rqRun evs).ran = []
          ∧ (rqRun evs).startEmits = 0) := by
  have h := rqRun_inv_aux evs [] false readyQInit
    ⟨by simp [readyQInit], by simp [readyQInit], by simp [readyQInit],
      by intro _; simp [readyQInit]⟩
  simpa [RQInv, rqRun] using h

/-- Witness for C4: two ready continuations registered before the resume
run exactly once each in order, and `start` is emitted exactly once even
though the queue keeps being poked afterwards. -/
theorem c4_ready_drains_once_witness :
    (hasResume [RQEv.push 5, RQEv.tick] = false →
      (rqRun [RQEv.push 5, RQEv.tick]).paused = true
        ∧ (rqRun [RQEv.push 5, RQEv.tick]).ran = []
        ∧ (rqRun [RQEv.push 5, RQEv.tick]).startEmits = 0)
    ∧ (rqRun [RQEv.push 5, RQEv.tick]).ran = [] :=
  ⟨(c4_ready_drains_once [RQEv.push 5, RQEv.tick]).2.2.2,
    ((c4_ready_drains_once [RQEv.push 5, RQEv.tick]).2.2.2 (by decide)).2.1⟩
